import Mathlib

/-!
Verification of the Flashback cutscene player (TypeScript sources).

This file gives a shallow embedding, in Lean 4, of the parts of the player
that the verified properties talk about:

* the scanline rasterizer (`Graphics` in the source: drawPoint, drawLine,
  drawPolygon, drawEllipse and the horizontal span fill);
* the CMD bytecode parser (`parseCMD` / `parseCommands` and the frame
  grouping loop) and the POL vertex-record decoder (`parseVertices`);
* the command interpreter and renderer state machine
  (`OpcodeInterpreter` together with the draw-list part of
  `Canvas2DRenderer`);
* the INS instrument parser (`parseIns`), the INS-file loader check of
  `MidiPlayer.loadInsFile`, and the OPL3 instrument translation
  (`insToOpl3`).

Machine integers are modelled by `Int`/`Nat` with the JavaScript coercions
(32-bit wrap for the bitwise operators, truncating division for
`Math.trunc`) made explicit.  Framebuffers are functions from absolute
pixel coordinates to pixel values; byte buffers are `List Nat` read with a
default of `0` out of range (reads past the end never influence any of the
verified properties, which are structural).
-/

namespace Flashback

/-! ## JavaScript numeric primitives -/

/-- Interpretation of a 16-bit big-endian word as a signed integer
(`DataView.getInt16`). -/
def sint16 (n : ℕ) : ℤ :=
  if n < 32768 then (n : ℤ) else (n : ℤ) - 65536

/-- Signed 32-bit wrap-around: the `ToInt32` coercion that JavaScript
applies to both operands of every bitwise operator. -/
def wrap32 (z : ℤ) : ℤ :=
  (z + 2 ^ 31) % 2 ^ 32 - 2 ^ 31

/-- Sign extension of the low 16 bits: the effect of the
`(x << 16) >> 16` idiom used in the source to simulate an int16_t cast. -/
def wrap16 (z : ℤ) : ℤ :=
  (z + 2 ^ 15) % 2 ^ 16 - 2 ^ 15

/-- JavaScript `a >> k`: coerce to int32, then arithmetic shift right,
which is floor division by `2 ^ k`. -/
def jsShr (z : ℤ) (k : ℕ) : ℤ :=
  wrap32 z / 2 ^ k

/-- JavaScript `a << k`: coerce to int32, shift, wrap to int32. -/
def jsShl (z : ℤ) (k : ℕ) : ℤ :=
  wrap32 (wrap32 z * 2 ^ k)

/-- JavaScript `a & 0xFFFF` on an int32 operand: the low 16 bits as a
non-negative integer. -/
def jandFFFF (z : ℤ) : ℤ :=
  wrap32 z % 2 ^ 16

/-- `Math.trunc (a / b)` on integer arguments: division truncated toward
zero. -/
def jtrunc (a b : ℤ) : ℤ :=
  Int.tdiv a b

/-- `Math.round` of a quantity given as `n / 4` (the only fractional
values in the source are quarters coming from `0.25 * rxSq` and
`(x + 0.5) ^ 2`); JavaScript rounds half-up, which is
`floor (n / 4 + 1 / 2)`. -/
def jround4 (n : ℤ) : ℤ :=
  (n + 2) / 4

/-! ## Pixels, framebuffers and the clipping configuration

`Graphics` owns an RGBA byte buffer of `width * height` pixels and a
clipping rectangle `(crx, cry, crw, crh)`; drawing coordinates are
relative to the clipping origin.  We model the buffer as a function from
absolute pixel coordinates (the guards of the source keep every write
inside `[0, width) * [0, height)`, so the flat-array indexing of the
source is in bijection with the coordinates used here), and the
`Uint8ClampedArray` write clamp by `clamp8`. -/

structure Color where
  r : ℕ
  g : ℕ
  b : ℕ
deriving DecidableEq, Repr

structure Pix where
  r : ℕ
  g : ℕ
  b : ℕ
  a : ℕ
deriving DecidableEq, Repr

abbrev Fb : Type := ℤ → ℤ → Pix

/-- The immutable part of a `Graphics` object: buffer dimensions and the
clipping rectangle (none of the drawing routines modify these). -/
structure GCfg where
  width : ℤ
  height : ℤ
  crx : ℤ
  cry : ℤ
  crw : ℤ
  crh : ℤ
deriving DecidableEq, Repr

/-- `Uint8ClampedArray` stores written values clamped to `[0, 255]`. -/
def clamp8 (n : ℕ) : ℕ := min n 255

/-- Write one RGBA pixel (alpha byte forced opaque) at absolute
coordinates. -/
def writePix (fb : Fb) (px py : ℤ) (c : Color) : Fb :=
  fun a b =>
    if a = px ∧ b = py then ⟨clamp8 c.r, clamp8 c.g, clamp8 c.b, 255⟩ else fb a b

/-- Write one pixel with the 50 percent alpha blend of
`drawHorizontalSpan` (`(old + new) >> 1` per channel). -/
def writePixBlend (fb : Fb) (px py : ℤ) (c : Color) : Fb :=
  fun a b =>
    if a = px ∧ b = py then
      ⟨clamp8 (((fb px py).r + c.r) / 2), clamp8 (((fb px py).g + c.g) / 2),
        clamp8 (((fb px py).b + c.b) / 2), 255⟩
    else fb a b

/-- `Graphics.drawPoint`: one pixel, guarded first by the clipping
rectangle (relative coordinates) and then by the buffer bounds. -/
def drawPoint (g : GCfg) (c : Color) (x y : ℤ) (fb : Fb) : Fb :=
  if 0 ≤ x ∧ x < g.crw ∧ 0 ≤ y ∧ y < g.crh then
    let px := x + g.crx
    let py := y + g.cry
    if 0 ≤ px ∧ px < g.width ∧ 0 ≤ py ∧ py < g.height then
      writePix fb px py c
    else fb
  else fb

/-- The inner `for` loop of `drawHorizontalSpan`, counted by the number
of remaining iterations (`endX + 1 - startX` at the call site); `py` is
the absolute row. -/
def spanLoop (g : GCfg) (c : Color) (alpha : Bool) (py : ℤ) :
    ℕ → ℤ → Fb → Fb
  | 0, _, fb => fb
  | k + 1, x, fb =>
    let px := x + g.crx
    let fb1 :=
      if 0 ≤ px ∧ px < g.width then
        if alpha then writePixBlend fb px py c else writePix fb px py c
      else fb
    spanLoop g c alpha py k (x + 1) fb1

/-- `Graphics.drawHorizontalSpan`. -/
def drawHorizontalSpan (g : GCfg) (c : Color) (alpha : Bool)
    (y x1 x2 : ℤ) (fb : Fb) : Fb :=
  if y < 0 ∨ g.crh ≤ y then fb
  else
    let py := y + g.cry
    if py < 0 ∨ g.height ≤ py then fb
    else
      let startX := max 0 x1
      let endX := min (g.crw - 1) x2
      spanLoop g c alpha py (endX + 1 - startX).toNat startX fb

/-! ## Bresenham line (`Graphics.drawLine`) -/

/-- The body of the `while (--delta2 >= 0)` loop of `drawLine`, counted
by the initial value of `delta2` (the loop runs exactly that many
times). -/
def lineLoop (g : GCfg) (c : Color) (dxincr1 dyincr1 dxincr2 dyincr2 octincr1 octincr2 : ℤ) :
    ℕ → ℤ → ℤ → ℤ → Fb → Fb
  | 0, _, _, _, fb => fb
  | n + 1, px, py, oct, fb =>
    if 0 ≤ oct then
      lineLoop g c dxincr1 dyincr1 dxincr2 dyincr2 octincr1 octincr2 n
        (px + dxincr1) (py + dyincr1) (oct + octincr1)
        (drawPoint g c (px + dxincr1) (py + dyincr1) fb)
    else
      lineLoop g c dxincr1 dyincr1 dxincr2 dyincr2 octincr1 octincr2 n
        (px + dxincr2) (py + dyincr2) (oct + octincr2)
        (drawPoint g c (px + dxincr2) (py + dyincr2) fb)

/-- `Graphics.drawLine`: Bresenham with independent major and minor step
variables, exactly following the source's sign stripping and octant
setup. -/
def drawLine (g : GCfg) (c : Color) (x1 y1 x2 y2 : ℤ) (fb : Fb) : Fb :=
  let dxincr1 : ℤ := if x2 - x1 < 0 then -1 else 1
  let dx := if x2 - x1 < 0 then -(x2 - x1) else x2 - x1
  let dyincr1 : ℤ := if y2 - y1 < 0 then -1 else 1
  let dy := if y2 - y1 < 0 then -(y2 - y1) else y2 - y1
  let dxincr2 : ℤ := if dx < dy then 0 else if dxincr1 < 0 then -1 else 1
  let dyincr2 : ℤ := if dx < dy then (if dyincr1 < 0 then -1 else 1) else 0
  let delta1 := if dx < dy then dx else dy
  let delta2 := if dx < dy then dy else dx
  let octincr1 := delta1 * 2 - delta2 * 2
  let octincr2 := delta1 * 2
  let oct := delta1 * 2 - delta2
  if 0 ≤ delta2 then
    lineLoop g c dxincr1 dyincr1 dxincr2 dyincr2 octincr1 octincr2
      delta2.toNat x1 y1 oct (drawPoint g c x1 y1 fb)
  else fb

/-! ## Scanline polygon fill (`Graphics.drawPolygon`) -/

/-- Vertex access `vertices[i]` (indices produced by the walk are always
in range; the default never matters for the verified properties). -/
def vget (verts : List (ℤ × ℤ)) (i : ℕ) : ℤ × ℤ :=
  verts.getD i (0, 0)

/-- The bounding-box and top-vertex scan of `drawPolygon` (the loop
`for i in [1, numPts)`); returns `(xmin, xmax, ymin, ymax, topIdx)`. -/
def bboxAux (verts : List (ℤ × ℤ)) (i : ℕ)
    (xmin xmax ymin ymax : ℤ) (top : ℕ) : ℤ × ℤ × ℤ × ℤ × ℕ :=
  if h : i < verts.length then
    let x := (verts.get ⟨i, h⟩).1
    let y := (verts.get ⟨i, h⟩).2
    let xmin1 := if x < xmin then x else xmin
    let xmax1 := if xmax < x then x else xmax
    let ymin1 := if y < ymin then y else ymin
    let top1 := if y < ymin then i else top
    let ymax1 := if ymax < y then y else ymax
    bboxAux verts (i + 1) xmin1 xmax1 ymin1 ymax1 top1
  else (xmin, xmax, ymin, ymax, top)
termination_by verts.length - i

/-- `calcPolyStep1` (left edge): 16.16 fixed-point per-row x step, with
the load-bearing int16 intermediate truncation in the normal case and
the `& 0xFFFF` mask in the overflow case. -/
def calcPolyStep1 (dx dy : ℤ) : ℤ :=
  if dy = 0 then 0
  else
    let a := dx * 256
    if |jsShr a 16| < dy then wrap16 (wrap32 (jtrunc a dy)) * 256
    else jsShl (jandFFFF (jtrunc (jtrunc a 256) dy)) 16

/-- `calcPolyStep2` (right edge): as `calcPolyStep1` but the overflow
case uses a signed shift instead of the mask. -/
def calcPolyStep2 (dx dy : ℤ) : ℤ :=
  if dy = 0 then 0
  else
    let a := dx * 256
    if |jsShr a 16| < dy then wrap16 (wrap32 (jtrunc a dy)) * 256
    else jsShl (jtrunc (jtrunc a 256) dy) 16

/-- Mutable edge-walk state of the scanline loop. -/
structure EdgeSt where
  leftIdx : ℕ
  rightIdx : ℕ
  leftX : ℤ
  rightX : ℤ
  leftDx : ℤ
  rightDx : ℤ
  leftEndY : ℤ
  rightEndY : ℤ
deriving DecidableEq, Repr

/-- Index step of the left edge (walks backward through the vertex
list). -/
def prevIdx (n i : ℕ) : ℕ := if i = 0 then n - 1 else i - 1

/-- Index step of the right edge (walks forward). -/
def nextIdx (n i : ℕ) : ℕ := if i = n - 1 then 0 else i + 1

/-- `advanceLeftEdge` of the source. -/
def advanceLeftEdge (verts : List (ℤ × ℤ)) (n : ℕ) (st : EdgeSt) : EdgeSt :=
  let fromIdx := st.leftIdx
  let li := prevIdx n fromIdx
  let fromY := (vget verts fromIdx).2
  let toY := (vget verts li).2
  let st1 := { st with leftIdx := li, leftEndY := toY }
  if fromY < toY then
    { st1 with
      leftX := jsShl (vget verts fromIdx).1 16
      leftDx := calcPolyStep1 ((vget verts li).1 - (vget verts fromIdx).1) (toY - fromY) }
  else st1

/-- `advanceRightEdge` of the source. -/
def advanceRightEdge (verts : List (ℤ × ℤ)) (n : ℕ) (st : EdgeSt) : EdgeSt :=
  let fromIdx := st.rightIdx
  let ri := nextIdx n fromIdx
  let fromY := (vget verts fromIdx).2
  let toY := (vget verts ri).2
  let st1 := { st with rightIdx := ri, rightEndY := toY }
  if fromY < toY then
    { st1 with
      rightX := jsShl (vget verts fromIdx).1 16
      rightDx := calcPolyStep2 ((vget verts ri).1 - (vget verts fromIdx).1) (toY - fromY) }
  else st1

/-- The `while (y >= leftEndY && leftIdx != rightIdx)` loop; the left
index cycles through the vertex ring, so `n` iterations always reach the
exit condition, which makes `n` a sufficient iteration budget. -/
def advLeftLoop (verts : List (ℤ × ℤ)) (n : ℕ) (y : ℤ) :
    ℕ → EdgeSt → EdgeSt
  | 0, st => st
  | fuel + 1, st =>
    if st.leftEndY ≤ y ∧ st.leftIdx ≠ st.rightIdx then
      advLeftLoop verts n y fuel (advanceLeftEdge verts n st)
    else st

/-- The corresponding right-edge loop. -/
def advRightLoop (verts : List (ℤ × ℤ)) (n : ℕ) (y : ℤ) :
    ℕ → EdgeSt → EdgeSt
  | 0, st => st
  | fuel + 1, st =>
    if st.rightEndY ≤ y ∧ st.leftIdx ≠ st.rightIdx then
      advRightLoop verts n y fuel (advanceRightEdge verts n st)
    else st

/-- The scanline row loop of `drawPolygon`, counted by the number of
remaining rows (`endY - startY + 1` at the call site). -/
def scanRows (g : GCfg) (c : Color) (alpha : Bool)
    (verts : List (ℤ × ℤ)) (n : ℕ) :
    ℕ → ℤ → EdgeSt → Fb → Fb
  | 0, _, _, fb => fb
  | rows + 1, y, st, fb =>
    let st1 := advLeftLoop verts n y n st
    let st2 := advRightLoop verts n y n st1
    let xa := jsShr (st2.leftX + 32768) 16
    let xb := jsShr (st2.rightX + 32768) 16
    let xlo := if xb < xa then xb else xa
    let xhi := if xb < xa then xa else xb
    let x1 := max 0 xlo
    let x2 := min (g.crw - 1) xhi
    let fb1 := if x1 ≤ x2 then drawHorizontalSpan g c alpha y x1 x2 fb else fb
    scanRows g c alpha verts n rows (y + 1)
      { st2 with leftX := st2.leftX + st2.leftDx, rightX := st2.rightX + st2.rightDx } fb1

/-- The general (3 or more vertices) branch of `drawPolygon`. -/
def polygonFill (g : GCfg) (c : Color) (alpha : Bool)
    (verts : List (ℤ × ℤ)) (fb : Fb) : Fb :=
  let n := verts.length
  let v0 := vget verts 0
  let bb := bboxAux verts 1 v0.1 v0.1 v0.2 v0.2 0
  let xmin := bb.1
  let xmax := bb.2.1
  let ymin := bb.2.2.1
  let ymax := bb.2.2.2.1
  let topIdx := bb.2.2.2.2
  if xmax < 0 ∨ g.crw ≤ xmin ∨ ymax < 0 ∨ g.crh ≤ ymin then fb
  else if ymax = ymin then
    drawHorizontalSpan g c alpha ymin (max 0 xmin) (min (g.crw - 1) xmax) fb
  else
    let st0 : EdgeSt :=
      { leftIdx := topIdx, rightIdx := topIdx
        leftX := jsShl (vget verts topIdx).1 16
        rightX := jsShl (vget verts topIdx).1 16
        leftDx := 0, rightDx := 0
        leftEndY := (vget verts topIdx).2, rightEndY := (vget verts topIdx).2 }
    let st1 := advanceRightEdge verts n (advanceLeftEdge verts n st0)
    let startY := max 0 ymin
    let endY := min (g.crh - 1) ymax
    let st2 :=
      if ymin < 0 then
        { st1 with
          leftX := st1.leftX + st1.leftDx * (-ymin)
          rightX := st1.rightX + st1.rightDx * (-ymin) }
      else st1
    scanRows g c alpha verts n (endY + 1 - startY).toNat startY st2 fb

/-- `Graphics.drawPolygon`: fewer than 2 vertices draws nothing, exactly
2 delegates to `drawLine`, otherwise the scanline fill runs. -/
def drawPolygon (g : GCfg) (c : Color) (alpha : Bool)
    (verts : List (ℤ × ℤ)) (fb : Fb) : Fb :=
  if verts.length < 2 then fb
  else if verts.length = 2 then
    drawLine g c (vget verts 0).1 (vget verts 0).2 (vget verts 1).1 (vget verts 1).2 fb
  else polygonFill g c alpha verts fb

/-! ## Filled ellipse (`Graphics.drawEllipse`)

The source collects one merged horizontal span per row in a `Map`
(insertion-ordered, keyed by the row), then fills them all.  Spans are
modelled as an association list `(y, x1, x2)` in insertion order. -/

def Span : Type := ℤ × ℤ × ℤ

/-- Merge a span into the list at its row, or append it (the `Map`
update of `addSpan`). -/
def insertSpan : List Span → ℤ → ℤ → ℤ → List Span
  | [], y, x1, x2 => [(y, x1, x2)]
  | (y0, a, b) :: rest, y, x1, x2 =>
    if y0 = y then (y0, min a x1, max b x2) :: rest
    else (y0, a, b) :: insertSpan rest y x1 x2

/-- `addSpan`: rows outside `[0, crh)` are dropped before the merge. -/
def addSpan (g : GCfg) (l : List Span) (y x1 x2 : ℤ) : List Span :=
  if y < 0 ∨ g.crh ≤ y then l else insertSpan l y x1 x2

/-- Region 1 of the midpoint ellipse algorithm (`while (px < py)`);
returns the final `(x, y, px, py)` together with the collected spans,
since region 2 continues from that state.  Each iteration increases `px`
by `twoRySq`, which is at least 2 in the reachable branch (`ry` is at
least 1), so `py0 - px0` bounds the iteration count and the fuel passed
at the call site suffices. -/
def ellipseRegion1 (g : GCfg) (cx cy rxSq rySq twoRxSq twoRySq : ℤ) :
    ℕ → ℤ → ℤ → ℤ → ℤ → ℤ → List Span → (ℤ × ℤ × ℤ × ℤ) × List Span
  | 0, x, y, px, py, _, spans => ((x, y, px, py), spans)
  | fuel + 1, x, y, px, py, p, spans =>
    if px < py then
      let spans1 := addSpan g (addSpan g spans (cy + y) (cx - x) (cx + x)) (cy - y) (cx - x) (cx + x)
      let x1 := x + 1
      let px1 := px + twoRySq
      if p < 0 then
        ellipseRegion1 g cx cy rxSq rySq twoRxSq twoRySq fuel x1 y px1 py
          (p + rySq + px1) spans1
      else
        ellipseRegion1 g cx cy rxSq rySq twoRxSq twoRySq fuel x1 (y - 1) px1
          (py - twoRxSq) (p + rySq + px1 - (py - twoRxSq)) spans1
    else ((x, y, px, py), spans)

/-- Region 2 of the midpoint ellipse algorithm (`while (y >= 0)`; `y`
decreases by 1 every iteration). -/
def ellipseRegion2 (g : GCfg) (cx cy rxSq rySq twoRxSq twoRySq : ℤ)
    (x y px py p : ℤ) (spans : List Span) : List Span :=
  if h : y < 0 then spans
  else
    let spans1 := addSpan g (addSpan g spans (cy + y) (cx - x) (cx + x)) (cy - y) (cx - x) (cx + x)
    let y1 := y - 1
    let py1 := py - twoRxSq
    if 0 < p then
      ellipseRegion2 g cx cy rxSq rySq twoRxSq twoRySq x y1 px py1
        (p + rxSq - py1) spans1
    else
      ellipseRegion2 g cx cy rxSq rySq twoRxSq twoRySq (x + 1) y1 (px + twoRySq) py1
        (p + rxSq - py1 + (px + twoRySq)) spans1
termination_by (y + 1).toNat
decreasing_by
  all_goals simp only [not_lt] at h
  all_goals omega

/-- Fill the collected spans in insertion order. -/
def fillSpans (g : GCfg) (c : Color) (alpha : Bool)
    (spans : List Span) (fb : Fb) : Fb :=
  spans.foldl (fun acc s => drawHorizontalSpan g c alpha s.1 s.2.1 s.2.2 acc) fb

/-- `Graphics.drawEllipse`: degenerate radii draw a single point,
otherwise the two midpoint regions collect spans which are then
scanline-filled. -/
def drawEllipse (g : GCfg) (c : Color) (alpha : Bool)
    (cx cy rx ry : ℤ) (fb : Fb) : Fb :=
  if rx ≤ 0 ∨ ry ≤ 0 then drawPoint g c cx cy fb
  else
    let rxSq := rx * rx
    let rySq := ry * ry
    let twoRxSq := 2 * rxSq
    let twoRySq := 2 * rySq
    let py0 := twoRxSq * ry
    let p1 := jround4 (4 * rySq - 4 * rxSq * ry + rxSq)
    let r1 := ellipseRegion1 g cx cy rxSq rySq twoRxSq twoRySq
      (py0.toNat + 1) 0 ry 0 py0 p1 []
    let st := r1.1
    let p2 := jround4 (4 * rySq * (st.1 * st.1 + st.1) + rySq
      + 4 * rxSq * (st.2.1 - 1) * (st.2.1 - 1) - 4 * rxSq * rySq)
    let spans2 := ellipseRegion2 g cx cy rxSq rySq twoRxSq twoRySq
      st.1 st.2.1 st.2.2.1 st.2.2.2 p2 r1.2
    fillSpans g c alpha spans2 fb

/-! ## Clipping safety of the rasterizer -/

/-- The absolute pixel `(a, b)` lies inside the clipping rectangle
`[0, crw) x [0, crh)` taken relative to the clipping origin. -/
def inClipRel (g : GCfg) (a b : ℤ) : Prop :=
  0 ≤ a - g.crx ∧ a - g.crx < g.crw ∧ 0 ≤ b - g.cry ∧ b - g.cry < g.crh

instance (g : GCfg) (a b : ℤ) : Decidable (inClipRel g a b) := by
  unfold inClipRel; infer_instance


theorem drawPoint_outside (g : GCfg) (a b : ℤ) (h : ¬ inClipRel g a b) :
    ∀ (c : Color) (x y : ℤ) (fb : Fb), drawPoint g c x y fb a b = fb a b := by
  intro c x y fb
  simp only [drawPoint]
  split_ifs with h1 h2
  · have hne : ¬ (a = x + g.crx ∧ b = y + g.cry) := by
      intro hab
      obtain ⟨ha, hb⟩ := hab
      obtain ⟨hx0, hxw, hy0, hyh⟩ := h1
      exact h ⟨by omega, by omega, by omega, by omega⟩
    simp only [writePix, if_neg hne]
  · rfl
  · rfl

theorem spanLoop_outside (g : GCfg) (a b : ℤ) (h : ¬ inClipRel g a b)
    (c : Color) (alpha : Bool) (py : ℤ)
    (hpy1 : 0 ≤ py - g.cry) (hpy2 : py - g.cry < g.crh) :
    ∀ (k : ℕ) (x : ℤ) (fb : Fb), 0 ≤ x → (x + k ≤ g.crw ∨ k = 0) →
      spanLoop g c alpha py k x fb a b = fb a b := by
  intro k
  induction k with
  | zero => intro x fb _ _; rfl
  | succ n ih =>
    intro x fb hx hxk
    have hxk1 : x + (n + 1 : ℕ) ≤ g.crw := by omega
    have hne : ¬ (a = x + g.crx ∧ b = py) := by
      intro hab
      obtain ⟨ha, hb⟩ := hab
      exact h ⟨by omega, by omega, by omega, by omega⟩
    show spanLoop g c alpha py n (x + 1)
      (if 0 ≤ x + g.crx ∧ x + g.crx < g.width then
        (if alpha then writePixBlend fb (x + g.crx) py c
         else writePix fb (x + g.crx) py c)
       else fb) a b = fb a b
    rw [ih (x + 1) _ (by omega) (by omega)]
    split_ifs with h1 h2
    · simp only [writePixBlend, if_neg hne]
    · simp only [writePix, if_neg hne]
    · rfl

theorem drawHorizontalSpan_outside (g : GCfg) (a b : ℤ) (h : ¬ inClipRel g a b) :
    ∀ (c : Color) (alpha : Bool) (y x1 x2 : ℤ) (fb : Fb),
      drawHorizontalSpan g c alpha y x1 x2 fb a b = fb a b := by
  intro c alpha y x1 x2 fb
  simp only [drawHorizontalSpan]
  split_ifs with h1 h2
  · rfl
  · rfl
  · rw [spanLoop_outside g a b h c alpha (y + g.cry) (by omega) (by omega)
      _ _ fb (by omega) (by omega)]

theorem lineLoop_outside (g : GCfg) (a b : ℤ) (h : ¬ inClipRel g a b)
    (c : Color) (d1x d1y d2x d2y o1 o2 : ℤ) :
    ∀ (n : ℕ) (px py oct : ℤ) (fb : Fb),
      lineLoop g c d1x d1y d2x d2y o1 o2 n px py oct fb a b = fb a b := by
  intro n
  induction n with
  | zero => intro px py oct fb; rfl
  | succ m ih =>
    intro px py oct fb
    show (if 0 ≤ oct then
        lineLoop g c d1x d1y d2x d2y o1 o2 m (px + d1x) (py + d1y) (oct + o1)
          (drawPoint g c (px + d1x) (py + d1y) fb)
      else
        lineLoop g c d1x d1y d2x d2y o1 o2 m (px + d2x) (py + d2y) (oct + o2)
          (drawPoint g c (px + d2x) (py + d2y) fb)) a b = fb a b
    split_ifs with h1
    · rw [ih, drawPoint_outside g a b h]
    · rw [ih, drawPoint_outside g a b h]

theorem drawLine_outside (g : GCfg) (a b : ℤ) (h : ¬ inClipRel g a b) :
    ∀ (c : Color) (x1 y1 x2 y2 : ℤ) (fb : Fb),
      drawLine g c x1 y1 x2 y2 fb a b = fb a b := by
  intro c x1 y1 x2 y2 fb
  simp only [drawLine, ite_apply, lineLoop_outside g a b h,
    drawPoint_outside g a b h, ite_self]

theorem scanRows_outside (g : GCfg) (a b : ℤ) (h : ¬ inClipRel g a b)
    (c : Color) (alpha : Bool) (verts : List (ℤ × ℤ)) (n : ℕ) :
    ∀ (rows : ℕ) (y : ℤ) (st : EdgeSt) (fb : Fb),
      scanRows g c alpha verts n rows y st fb a b = fb a b := by
  intro rows
  induction rows with
  | zero => intro y st fb; rfl
  | succ m ih =>
    intro y st fb
    simp only [scanRows]
    rw [ih]
    split_ifs <;> first
      | rw [drawHorizontalSpan_outside g a b h]
      | rfl

theorem polygonFill_outside (g : GCfg) (a b : ℤ) (h : ¬ inClipRel g a b) :
    ∀ (c : Color) (alpha : Bool) (verts : List (ℤ × ℤ)) (fb : Fb),
      polygonFill g c alpha verts fb a b = fb a b := by
  intro c alpha verts fb
  simp only [polygonFill]
  split_ifs with h1 h2 h3
  · rfl
  · rw [drawHorizontalSpan_outside g a b h]
  · rw [scanRows_outside g a b h]
  · rw [scanRows_outside g a b h]

theorem drawPolygon_outside (g : GCfg) (a b : ℤ) (h : ¬ inClipRel g a b) :
    ∀ (c : Color) (alpha : Bool) (verts : List (ℤ × ℤ)) (fb : Fb),
      drawPolygon g c alpha verts fb a b = fb a b := by
  intro c alpha verts fb
  simp only [drawPolygon]
  split_ifs with h1 h2
  · rfl
  · rw [drawLine_outside g a b h]
  · rw [polygonFill_outside g a b h]

theorem fillSpans_outside (g : GCfg) (a b : ℤ) (h : ¬ inClipRel g a b)
    (c : Color) (alpha : Bool) :
    ∀ (spans : List Span) (fb : Fb), fillSpans g c alpha spans fb a b = fb a b := by
  intro spans
  induction spans with
  | nil => intro fb; rfl
  | cons s rest ih =>
    intro fb
    show fillSpans g c alpha rest (drawHorizontalSpan g c alpha s.1 s.2.1 s.2.2 fb) a b = fb a b
    rw [ih, drawHorizontalSpan_outside g a b h]

theorem drawEllipse_outside (g : GCfg) (a b : ℤ) (h : ¬ inClipRel g a b) :
    ∀ (c : Color) (alpha : Bool) (cx cy rx ry : ℤ) (fb : Fb),
      drawEllipse g c alpha cx cy rx ry fb a b = fb a b := by
  intro c alpha cx cy rx ry fb
  simp only [drawEllipse]
  split_ifs with h1
  · rw [drawPoint_outside g a b h]
  · rw [fillSpans_outside g a b h]

/-! ## Claim C6 and C7 -/

/-- A concrete framebuffer (all channels zero) for witnesses. -/
def fbZero : Fb := fun _ _ => ⟨0, 0, 0, 0⟩

/-- The `Graphics` configuration the player actually constructs:
a 256 x 224 buffer whose clipping rectangle is the whole buffer. -/
def gDemo : GCfg := ⟨256, 224, 0, 0, 256, 224⟩

/-- A concrete colour for witnesses. -/
def cDemo : Color := ⟨255, 0, 0⟩

/-- C6 (Rasterizer.clipping): for every colour, alpha flag and any
coordinate or vertex inputs whatsoever, none of `drawPoint`, `drawLine`,
`drawPolygon`, `drawEllipse` or the horizontal span fill changes any
pixel lying outside the clipping rectangle `[0, crw) x [0, crh)` taken
relative to the clipping origin. -/
theorem rasterizer_clipping (g : GCfg) (c : Color) (alpha : Bool)
    (x y lx1 ly1 lx2 ly2 sy sx1 sx2 cx cy rx ry : ℤ)
    (verts : List (ℤ × ℤ)) (fb : Fb) (a b : ℤ)
    (h : ¬ inClipRel g a b) :
    drawPoint g c x y fb a b = fb a b ∧
    drawLine g c lx1 ly1 lx2 ly2 fb a b = fb a b ∧
    drawPolygon g c alpha verts fb a b = fb a b ∧
    drawEllipse g c alpha cx cy rx ry fb a b = fb a b ∧
    drawHorizontalSpan g c alpha sy sx1 sx2 fb a b = fb a b :=
  ⟨drawPoint_outside g a b h c x y fb,
   drawLine_outside g a b h c lx1 ly1 lx2 ly2 fb,
   drawPolygon_outside g a b h c alpha verts fb,
   drawEllipse_outside g a b h c alpha cx cy rx ry fb,
   drawHorizontalSpan_outside g a b h c alpha sy sx1 sx2 fb⟩

/-- Witness for C6: the pixel `(-1, -1)` is outside the clipping
rectangle of the player's configuration and none of the routines touches
it on a sample input. -/
theorem rasterizer_clipping_witness :
    ¬ inClipRel gDemo (-1) (-1) ∧
    (drawPoint gDemo cDemo 3 4 fbZero (-1) (-1) = fbZero (-1) (-1) ∧
     drawLine gDemo cDemo 0 0 5 5 fbZero (-1) (-1) = fbZero (-1) (-1) ∧
     drawPolygon gDemo cDemo false [(0, 0), (9, 0), (4, 7)] fbZero (-1) (-1) = fbZero (-1) (-1) ∧
     drawEllipse gDemo cDemo false 10 6 3 2 fbZero (-1) (-1) = fbZero (-1) (-1) ∧
     drawHorizontalSpan gDemo cDemo false 2 0 20 fbZero (-1) (-1) = fbZero (-1) (-1)) :=
  ⟨by decide,
   rasterizer_clipping gDemo cDemo false 3 4 0 0 5 5 2 0 20 10 6 3 2
     [(0, 0), (9, 0), (4, 7)] fbZero (-1) (-1) (by decide)⟩

/-- C7 (amended): `Graphics.drawPolygon` given exactly 2 vertices draws
the Bresenham line between them, exactly as `drawLine` does; given 1
vertex (or none) it draws nothing at all — the single-point case is
handled one level above, before `drawPolygon` is called. -/
theorem drawPolygon_low_vertex_dispatch (g : GCfg) (c : Color) (alpha : Bool)
    (v0 v1 : ℤ × ℤ) (fb : Fb) :
    drawPolygon g c alpha [v0, v1] fb = drawLine g c v0.1 v0.2 v1.1 v1.2 fb ∧
    drawPolygon g c alpha [v0] fb = fb ∧
    drawPolygon g c alpha [] fb = fb :=
  ⟨rfl, rfl, rfl⟩

/-- Counterexample for C7 as stated: with a single vertex,
`Graphics.drawPolygon` leaves the framebuffer untouched, while
`drawPoint` on the same vertex does write the pixel. -/
theorem drawPolygon_single_vertex_counterexample :
    drawPolygon gDemo cDemo false [(5, 5)] fbZero = fbZero ∧
    drawPoint gDemo cDemo 5 5 fbZero 5 5 ≠ fbZero 5 5 :=
  ⟨rfl, by decide⟩

/-! ## Binary reader over a byte buffer

`BinaryReader` of the source, over a `List ℕ` of bytes.  JavaScript
reads past the end of a `Uint8Array` yield `undefined`; such reads are
modelled with a default of `0` — none of the verified properties depends
on bytes outside the buffer. -/

def byteAt (buf : List ℕ) (i : ℕ) : ℕ := buf.getD i 0

/-- `readBEUint16At`. -/
def beU16At (buf : List ℕ) (i : ℕ) : ℕ := byteAt buf i * 256 + byteAt buf (i + 1)

/-- `readBEInt16At`. -/
def beI16At (buf : List ℕ) (i : ℕ) : ℤ := sint16 (beU16At buf i)

/-- `readInt8At`. -/
def i8At (buf : List ℕ) (i : ℕ) : ℤ :=
  if byteAt buf i < 128 then (byteAt buf i : ℤ) else (byteAt buf i : ℤ) - 256

/-- Little-endian `DataView.getUint16(o, true)` (used by the INS
parser). -/
def leU16At (buf : List ℕ) (i : ℕ) : ℕ := byteAt buf i + byteAt buf (i + 1) * 256

/-! ## The CMD command model (`types.ts` and `parseCommands`)

The source represents a command as a record with an `op` string and
optional argument fields; each opcode always fills exactly the fields
its interpreter case reads, so an inductive with one constructor per
opcode name is an equivalent model.  Opcodes 0 and 5 both carry the name
`markCurPos` and are therefore one constructor. -/

inductive Command where
  | markCurPos : Command
  | refreshScreen (clearMode : ℕ) : Command
  | waitForSync (frames : ℕ) : Command
  | drawShape (shapeId : ℕ) (x y : ℤ) : Command
  | setPalette (paletteNum bufferNum : ℕ) : Command
  | drawCaptionText (stringId : ℕ) : Command
  | nop : Command
  | skip3 (b0 b1 b2 : ℕ) : Command
  | refreshAll : Command
  | drawShapeScale (shapeId : ℕ) (x y zoom : ℤ) (originX originY : ℕ) : Command
  | drawShapeScaleRotate (shapeId : ℕ) (x y zoom : ℤ)
      (originX originY rotationA rotationB rotationC : ℕ) : Command
  | copyScreen : Command
  | drawTextAtPos (args : Option (ℕ × ℕ × ℤ × ℤ)) : Command
  | handleKeys (handlers : List (ℕ × ℤ)) : Command
deriving DecidableEq, Repr

structure Frame where
  commands : List Command
deriving DecidableEq, Repr

structure Subscene where
  id : ℕ
  offset : ℕ
  frames : List Frame
deriving DecidableEq, Repr

structure Script where
  subsceneCount : ℕ
  baseOffset : ℕ
  subscenes : List Subscene
deriving DecidableEq, Repr

/-- The `while (true)` argument loop of the `handleKeys` case; each
iteration consumes 3 bytes, so the buffer length bounds the iteration
count (in the source an out-of-range read aborts the parse; the claims
never involve `handleKeys` arguments).  Returns the handlers and the
position after the `0xFF` terminator. -/
def handleKeysLoop (buf : List ℕ) : ℕ → ℕ → List (ℕ × ℤ) × ℕ
  | 0, pos => ([], pos)
  | fuel + 1, pos =>
    let keyMask := byteAt buf pos
    if keyMask = 255 then ([], pos + 1)
    else
      let target := beI16At buf (pos + 1)
      let r := handleKeysLoop buf fuel (pos + 3)
      ((keyMask, target) :: r.1, r.2)

/-- The command-stream loop of `parseCommands`: read one byte; a set
high bit ends the stream; `op = byte >> 2`; `op > 14` is a decode error
(stream abandoned); otherwise decode the arguments of the opcode.  Every
iteration advances the position by at least one byte, so
`buf.length + 1` fuel (used at every call site) is never exhausted
before `eof`. -/
def parseCommandsAux (buf : List ℕ) : ℕ → ℕ → List Command
  | 0, _ => []
  | fuel + 1, pos =>
    if buf.length ≤ pos then []
    else
      let b := byteAt buf pos
      if b &&& 128 ≠ 0 then []
      else
        let op := b >>> 2
        if 14 < op then []
        else if op = 0 ∨ op = 5 then
          .markCurPos :: parseCommandsAux buf fuel (pos + 1)
        else if op = 1 then
          .refreshScreen (byteAt buf (pos + 1)) :: parseCommandsAux buf fuel (pos + 2)
        else if op = 2 then
          .waitForSync (byteAt buf (pos + 1)) :: parseCommandsAux buf fuel (pos + 2)
        else if op = 3 then
          let sw := beU16At buf (pos + 1)
          if sw &&& 32768 ≠ 0 then
            .drawShape (sw &&& 2047) (beI16At buf (pos + 3)) (beI16At buf (pos + 5)) ::
              parseCommandsAux buf fuel (pos + 7)
          else
            .drawShape (sw &&& 2047) 0 0 :: parseCommandsAux buf fuel (pos + 3)
        else if op = 4 then
          .setPalette (byteAt buf (pos + 1)) (byteAt buf (pos + 2)) ::
            parseCommandsAux buf fuel (pos + 3)
        else if op = 6 then
          .drawCaptionText (beU16At buf (pos + 1)) :: parseCommandsAux buf fuel (pos + 3)
        else if op = 7 then
          .nop :: parseCommandsAux buf fuel (pos + 1)
        else if op = 8 then
          .skip3 (byteAt buf (pos + 1)) (byteAt buf (pos + 2)) (byteAt buf (pos + 3)) ::
            parseCommandsAux buf fuel (pos + 4)
        else if op = 9 then
          .refreshAll :: parseCommandsAux buf fuel (pos + 1)
        else if op = 10 then
          let sw := beU16At buf (pos + 1)
          if sw &&& 32768 ≠ 0 then
            .drawShapeScale (sw &&& 2047) (beI16At buf (pos + 3)) (beI16At buf (pos + 5))
                (beI16At buf (pos + 7)) (byteAt buf (pos + 9)) (byteAt buf (pos + 10)) ::
              parseCommandsAux buf fuel (pos + 11)
          else
            .drawShapeScale (sw &&& 2047) 0 0
                (beI16At buf (pos + 3)) (byteAt buf (pos + 5)) (byteAt buf (pos + 6)) ::
              parseCommandsAux buf fuel (pos + 7)
        else if op = 11 then
          let sw := beU16At buf (pos + 1)
          let p1 := pos + 3
          let xv := if sw &&& 32768 ≠ 0 then beI16At buf p1 else 0
          let yv := if sw &&& 32768 ≠ 0 then beI16At buf (p1 + 2) else 0
          let p2 := if sw &&& 32768 ≠ 0 then p1 + 4 else p1
          let zv := if sw &&& 16384 ≠ 0 then beI16At buf p2 else 0
          let p3 := if sw &&& 16384 ≠ 0 then p2 + 2 else p2
          let oxv := byteAt buf p3
          let oyv := byteAt buf (p3 + 1)
          let p4 := p3 + 2
          let ra := beU16At buf p4
          let p5 := p4 + 2
          let rb := if sw &&& 8192 ≠ 0 then beU16At buf p5 else 180
          let p6 := if sw &&& 8192 ≠ 0 then p5 + 2 else p5
          let rc := if sw &&& 4096 ≠ 0 then beU16At buf p6 else 90
          let p7 := if sw &&& 4096 ≠ 0 then p6 + 2 else p6
          .drawShapeScaleRotate (sw &&& 2047) xv yv zv oxv oyv ra rb rc ::
            parseCommandsAux buf fuel p7
        else if op = 12 then
          .copyScreen :: parseCommandsAux buf fuel (pos + 1)
        else if op = 13 then
          let v := beU16At buf (pos + 1)
          if v = 65535 then
            .drawTextAtPos none :: parseCommandsAux buf fuel (pos + 3)
          else
            .drawTextAtPos (some (v &&& 4095, (v >>> 12) &&& 15,
                i8At buf (pos + 3) * 8, i8At buf (pos + 4) * 8)) ::
              parseCommandsAux buf fuel (pos + 5)
        else
          let r := handleKeysLoop buf (buf.length + 1) (pos + 1)
          .handleKeys r.1 :: parseCommandsAux buf fuel r.2

/-- `parseCommands` from a stream position. -/
def parseCommands (buf : List ℕ) (pos : ℕ) : List Command :=
  parseCommandsAux buf (buf.length + 1) pos

/-- Is this command a frame boundary (`markCurPos`, opcodes 0 and 5)? -/
def isMark : Command → Bool
  | .markCurPos => true
  | _ => false

/-- The frame-grouping loop of `parseCMD`: close the frame being
accumulated whenever a `markCurPos` arrives and the accumulator is
non-empty, then push the command (so the `markCurPos` starts the next
frame); a non-empty accumulator at the end forms the last frame. -/
def groupFramesAux : List Command → List Command → List (List Command)
  | cur, [] => if cur = [] then [] else [cur]
  | cur, c :: rest =>
    if isMark c ∧ cur ≠ [] then cur :: groupFramesAux [c] rest
    else groupFramesAux (cur ++ [c]) rest

/-- Group a parsed command stream into frames. -/
def groupFrames (cs : List Command) : List Frame :=
  (groupFramesAux [] cs).map Frame.mk

/-- `parseCMD`: header, subscene offsets and per-subscene command
streams grouped into frames. -/
def parseCMD (buf : List ℕ) : Script :=
  let subCount := beU16At buf 0
  let baseOffset := (subCount + 1) * 2
  let subOffsets :=
    if subCount = 0 then [0]
    else (List.range subCount).map fun k => beU16At buf (2 + 2 * k)
  let subscenes :=
    (List.range subOffsets.length).map fun s =>
      let off := subOffsets.getD s 0
      Subscene.mk s off (groupFrames (parseCommands buf (baseOffset + off)))
  Script.mk subOffsets.length baseOffset subscenes

/-! ## POL vertex-record decoding (`parseVertices`) -/

/-- Primitive model from `types.ts`.  The source spreads
`offsetX`/`offsetY` into the record only when one of them is non-zero
and every consumer reads them with a `|| 0` default, so plain fields
defaulting to `0` are an equivalent model. -/
inductive Primitive where
  | point (color : ℕ) (alpha : Bool) (offsetX offsetY x y : ℤ) : Primitive
  | ellipse (color : ℕ) (alpha : Bool) (offsetX offsetY cx cy rx ry : ℤ) : Primitive
  | polygon (color : ℕ) (alpha : Bool) (offsetX offsetY : ℤ)
      (vertices : List (ℤ × ℤ)) : Primitive
deriving DecidableEq, Repr

/-- The delta loop of the polygon branch: exactly `n` signed 8-bit delta
pairs, each accumulated onto the running position. -/
def polyDeltaLoop (buf : List ℕ) : ℕ → ℕ → ℤ → ℤ → List (ℤ × ℤ)
  | 0, _, _, _ => []
  | n + 1, pos, ix, iy =>
    let ix1 := ix + i8At buf pos
    let iy1 := iy + i8At buf (pos + 1)
    (ix1, iy1) :: polyDeltaLoop buf n (pos + 2) ix1 iy1

/-- `parseVertices`: look the vertex record up through the offset table,
read the count byte `num`; `num = 0` is a point, a set bit 0x80 an
ellipse, otherwise a polygon of one absolute point plus `num` delta
pairs. -/
def parseVertices (buf : List ℕ) (vertexIndex votbl vdtbl : ℕ)
    (color : ℕ) (alpha : Bool) (ox oy : ℤ) : Primitive :=
  let rel := beU16At buf (votbl + vertexIndex * 2)
  let voff := vdtbl + rel
  let num := byteAt buf voff
  let pos := voff + 1
  if num = 0 then
    .point color alpha ox oy (beI16At buf pos) (beI16At buf (pos + 2))
  else if num &&& 128 ≠ 0 then
    .ellipse color alpha ox oy (beI16At buf pos) (beI16At buf (pos + 2))
      (beI16At buf (pos + 4)) (beI16At buf (pos + 6))
  else
    let ix := beI16At buf pos
    let iy := beI16At buf (pos + 2)
    .polygon color alpha ox oy ((ix, iy) :: polyDeltaLoop buf num (pos + 4) ix iy)

/-- Number of vertices of a parsed polygon primitive (and `none` for
the other primitive kinds). -/
def primPolygonVertexCount : Primitive → Option ℕ
  | .polygon _ _ _ _ vs => some vs.length
  | _ => none

theorem polyDeltaLoop_length (buf : List ℕ) :
    ∀ (n : ℕ) (pos : ℕ) (ix iy : ℤ),
      (polyDeltaLoop buf n pos ix iy).length = n := by
  intro n
  induction n with
  | zero => intro pos ix iy; rfl
  | succ m ih =>
    intro pos ix iy
    simp only [polyDeltaLoop, List.length_cons, ih]

/-- C4 (POL.polygon.count): whenever the vertex record's count byte
`num` is non-zero with clear bit 0x80, the parsed primitive is a polygon
with exactly `num + 1` vertices: one absolute point plus `num` delta
pairs. -/
theorem parseVertices_polygon_count (buf : List ℕ)
    (vertexIndex votbl vdtbl color : ℕ) (alpha : Bool) (ox oy : ℤ) (num : ℕ)
    (hnum : num = byteAt buf (vdtbl + beU16At buf (votbl + vertexIndex * 2)))
    (h0 : num ≠ 0) (h128 : num &&& 128 = 0) :
    primPolygonVertexCount
      (parseVertices buf vertexIndex votbl vdtbl color alpha ox oy) =
      some (num + 1) := by
  subst hnum
  simp only [parseVertices]
  rw [if_neg h0, if_neg (by simp [h128])]
  simp [primPolygonVertexCount, polyDeltaLoop_length, Nat.add_comm]

/-- Witness for C4: a concrete vertex record with count byte 2 parses to
a polygon with 3 vertices. -/
theorem parseVertices_polygon_count_witness :
    (2 : ℕ) = byteAt [0, 2, 2, 0, 10, 0, 20, 1, 1, 255, 255]
        (0 + beU16At [0, 2, 2, 0, 10, 0, 20, 1, 1, 255, 255] (0 + 0 * 2)) ∧
    (2 : ℕ) ≠ 0 ∧ (2 : ℕ) &&& 128 = 0 ∧
    primPolygonVertexCount
      (parseVertices [0, 2, 2, 0, 10, 0, 20, 1, 1, 255, 255] 0 0 0 9 false 0 0) =
      some 3 :=
  ⟨by decide, by decide, by decide,
   parseVertices_polygon_count [0, 2, 2, 0, 10, 0, 20, 1, 1, 255, 255]
     0 0 0 9 false 0 0 2 (by decide) (by decide) (by decide)⟩

/-! ## Claim C3: frame grouping -/

/-- Number of frame boundaries (`markCurPos`) in a command stream. -/
def countMarks (cs : List Command) : ℕ := (cs.filter isMark).length

/-- The suffix of the stream after its last `markCurPos`; when the
stream has no `markCurPos` at all, the whole stream (this is the
`tail after the last markCurPos` of the claim's wording). -/
def tailAfterLastMark : List Command → List Command
  | [] => []
  | c :: rest =>
    if rest.any isMark then tailAfterLastMark rest
    else if isMark c then rest
    else c :: rest

/-- The frame count predicted by claim C3, written out for refutation:
the number of `markCurPos` commands, plus one exactly when a non-empty
tail follows the last `markCurPos`. -/
def claimedFrameCount (cs : List Command) : ℕ :=
  countMarks cs + (if tailAfterLastMark cs = [] then 0 else 1)

theorem groupFramesAux_length (rest : List Command) :
    ∀ (cur : List Command), cur ≠ [] →
      (groupFramesAux cur rest).length = countMarks rest + 1 := by
  induction rest with
  | nil =>
    intro cur hcur
    simp [groupFramesAux, hcur, countMarks]
  | cons c cs ih =>
    intro cur hcur
    simp only [groupFramesAux]
    split_ifs with h1
    · have hm : isMark c = true := h1.1
      simp only [List.length_cons, ih [c] (by simp)]
      simp [countMarks, List.filter, hm]
    · have hm : isMark c = false := by
        rcases Bool.eq_false_or_eq_true (isMark c) with hm | hm
        · exact absurd ⟨hm, hcur⟩ h1
        · exact hm
      rw [ih (cur ++ [c]) (by simp)]
      simp [countMarks, List.filter, hm]

/-- C3 (amended, CMD.framing): the frame-grouping loop of `parseCMD`
puts each `markCurPos` at the head of the frame it opens, so the number
of frames of a parsed subscene equals the number of `markCurPos`
commands at non-initial positions of its command stream, plus one for
any non-empty stream. -/
theorem cmd_framing (cs : List Command) :
    (groupFrames cs).length =
      countMarks cs.tail + (if cs = [] then 0 else 1) := by
  cases cs with
  | nil => rfl
  | cons c rest =>
    simp only [groupFrames, List.length_map, List.tail_cons,
      if_neg (List.cons_ne_nil c rest)]
    show (groupFramesAux [] (c :: rest)).length = countMarks rest + 1
    simp only [groupFramesAux]
    split_ifs with h1
    · exact absurd h1.2 (by simp)
    · exact groupFramesAux_length rest [c] (by simp)

/-- Counterexample for C3 as stated: the concrete CMD file
`[0, 0, 0x1C, 0x00, 0x80]` (one implicit subscene whose stream is
`nop; markCurPos`) parses to 2 frames, while the claim's formula
predicts `1` (one `markCurPos`, empty tail after it). -/
theorem cmd_framing_counterexample :
    (parseCMD [0, 0, 28, 0, 128]).subscenes.map (fun s => s.frames.length) = [2] ∧
    parseCommands [0, 0, 28, 0, 128] 2 = [Command.nop, Command.markCurPos] ∧
    claimedFrameCount [Command.nop, Command.markCurPos] = 1 ∧
    (2 : ℕ) ≠ claimedFrameCount [Command.nop, Command.markCurPos] := by
  refine ⟨by decide, by decide, by decide, by decide⟩

/-! ## Renderer and interpreter state machine

`Canvas2DRenderer` keeps the draw list, the auxiliary (background) list,
the active palette and its own copy of the clear-screen flag;
`OpcodeInterpreter` keeps the frame counters, the 32-colour palette
buffer and the clear-screen flag, and pushes palette and flag changes to
the renderer.  `executeCommand` never reads or writes the frame
counters, so the state is split into the navigation fields and the
`CoreState` it acts on.

A `DrawnShape` stores `scale = (zoom + 512) / 512` as a double; the
field is kept here as the exact integer numerator `scaleNum = zoom + 512`
over the fixed denominator 512 (the double value is exactly
`scaleNum / 512`, a dyadic rational, so the two representations are in
bijection); likewise `rotation = rotationA * PI / 180` is kept as the
degree argument `rotationDeg`, and the conversion is injective.  The
numeric values are recovered by `scaleValue` below. -/

structure DrawnShape where
  shapeId : ℕ
  x : ℤ
  y : ℤ
  scaleNum : ℤ
  rotationDeg : ℕ
  originX : ℕ
  originY : ℕ
  clearScreenAtDraw : ℕ
deriving DecidableEq, Repr

/-- The double held in `DrawnShape.scale`, namely `(zoom + 512) / 512`. -/
def scaleValue (d : DrawnShape) : ℚ := (d.scaleNum : ℚ) / 512

/-- The renderer's scale formula `(zoom + 512) / 512` of
`Canvas2DRenderer.drawShapeScale`. -/
def scaleOfZoom (zoom : ℤ) : ℚ := ((zoom : ℚ) + 512) / 512

structure Shape where
  id : ℕ
  primitives : List Primitive
deriving DecidableEq, Repr

structure Cutscene where
  shapes : List Shape
  palettes : List (List Color)
  script : Script
deriving DecidableEq, Repr

/-- `Map.get` over the shape map built by `loadShapes` (`Map.set` keeps
the last entry per id, hence the reversed search). -/
def shapesFind (shapes : List Shape) (i : ℕ) : Option Shape :=
  shapes.reverse.find? (fun s => s.id = i)

/-- The mutable state `executeCommand` acts on: the interpreter's
palette buffer and clear-screen flag plus the renderer's draw lists,
palette and flag. -/
structure CoreState where
  paletteBuffer : List Color
  clearScreen : ℕ
  rDrawn : List DrawnShape
  rAux : List DrawnShape
  rPalette : List Color
  rClearScreen : ℕ
deriving DecidableEq, Repr

/-- Full interpreter state: navigation counters plus the core. -/
structure PState where
  currentSubscene : ℕ
  currentFrame : ℕ
  totalFrames : ℕ
  core : CoreState
deriving DecidableEq, Repr

/-- `createEmptyPalette`: 32 black entries. -/
def createEmptyPalette : List Color := List.replicate 32 ⟨0, 0, 0⟩

/-- `Canvas2DRenderer.clearDrawnShapes`: with the renderer's flag at 0
keep the background shapes, otherwise drop everything. -/
def clearDrawnShapes (st : CoreState) : CoreState :=
  if st.rClearScreen = 0 then { st with rDrawn := st.rAux }
  else { st with rDrawn := [], rAux := [] }

/-- Push one `DrawnShape` the way the three renderer draw entries do:
skip unknown shape ids, stamp the renderer's clear-screen flag, and
append to the auxiliary list as well while the flag is non-zero. -/
def pushDrawnShape (shapes : List Shape) (st : CoreState) (d : DrawnShape) : CoreState :=
  match shapesFind shapes d.shapeId with
  | none => st
  | some _ =>
    if st.rClearScreen ≠ 0 then
      { st with rDrawn := st.rDrawn ++ [d], rAux := st.rAux ++ [d] }
    else
      { st with rDrawn := st.rDrawn ++ [d] }

/-- `Canvas2DRenderer.drawShape`. -/
def rendererDrawShape (shapes : List Shape) (st : CoreState)
    (shapeId : ℕ) (x y : ℤ) : CoreState :=
  pushDrawnShape shapes st ⟨shapeId, x, y, 0 + 512, 0, 0, 0, st.rClearScreen⟩

/-- `Canvas2DRenderer.drawShapeScale` (`scale = (zoom + 512) / 512`,
stored as the numerator over 512). -/
def rendererDrawShapeScale (shapes : List Shape) (st : CoreState)
    (shapeId : ℕ) (x y zoom : ℤ) (originX originY : ℕ) : CoreState :=
  pushDrawnShape shapes st ⟨shapeId, x, y, zoom + 512, 0, originX, originY, st.rClearScreen⟩

/-- `Canvas2DRenderer.drawShapeScaleRotate` (angles B and C are
ignored). -/
def rendererDrawShapeScaleRotate (shapes : List Shape) (st : CoreState)
    (shapeId : ℕ) (x y zoom : ℤ) (originX originY rotationA : ℕ) : CoreState :=
  pushDrawnShape shapes st ⟨shapeId, x, y, zoom + 512, rotationA, originX, originY, st.rClearScreen⟩

/-- The copy loop of the `setPalette` case:
`for (i = 0; i < 16 && i < src.length; i++) buffer[destOffset + i] = src[i]`;
the counter `i` rises while the second argument (the remaining iteration
budget, `16 - i` at every call) falls, so the recursion is structural. -/
def writePaletteSlice (destOffset : ℕ) (src : List Color) : ℕ → ℕ → List Color → List Color
  | _, 0, buf => buf
  | i, n + 1, buf =>
    if i < 16 ∧ i < src.length then
      writePaletteSlice destOffset src (i + 1) n
        (buf.set (destOffset + i) (src.getD i ⟨0, 0, 0⟩))
    else buf

/-- `OpcodeInterpreter.executeCommand`.  The cases absent here
(`waitForSync`, `copyScreen`, `refreshAll`, `nop`, `skip3`,
`drawCaptionText`, `drawTextAtPos`, `handleKeys`) are no-ops in the
source. -/
def executeCommand (cs : Cutscene) (st : CoreState) : Command → CoreState
  | .markCurPos => clearDrawnShapes st
  | .refreshScreen m =>
    let st1 := { st with clearScreen := m, rClearScreen := m }
    if m ≠ 0 then clearDrawnShapes st1 else st1
  | .drawShape sid x y => rendererDrawShape cs.shapes st sid x y
  | .drawShapeScale sid x y zoom ox oy =>
    rendererDrawShapeScale cs.shapes st sid x y zoom ox oy
  | .drawShapeScaleRotate sid x y zoom ox oy ra _ _ =>
    rendererDrawShapeScaleRotate cs.shapes st sid x y zoom ox oy ra
  | .setPalette p b =>
    if p < cs.palettes.length then
      let src := cs.palettes.getD p []
      let destOffset := ((b ^^^ 1) &&& 1) * 16
      let buf := writePaletteSlice destOffset src 0 16 st.paletteBuffer
      { st with paletteBuffer := buf, rPalette := buf }
    else st
  | _ => st

/-- `countTotalFrames`. -/
def countTotalFrames (cs : Cutscene) : ℕ :=
  (cs.script.subscenes.map (fun s => s.frames.length)).sum

/-- `getFrameAt`: translate a global frame index into a subscene-local
one (`null` past the end). -/
def getFrameAt : List Subscene → ℕ → Option Frame
  | [], _ => none
  | s :: rest, i =>
    if i < s.frames.length then some (s.frames.getD i ⟨[]⟩)
    else getFrameAt rest (i - s.frames.length)

/-- `executeFrame`: commands of a frame in declared order. -/
def executeFrame (cs : Cutscene) (st : CoreState) (fr : Frame) : CoreState :=
  fr.commands.foldl (executeCommand cs) st

/-- Execute the frame at a global index if it exists
(`renderCurrentFrame` skips execution when `getFrameAt` yields null;
`updateDrawnShapeColors` is a no-op in the source). -/
def stepFrame (cs : Cutscene) (st : CoreState) (f : ℕ) : CoreState :=
  match getFrameAt cs.script.subscenes f with
  | some fr => executeFrame cs st fr
  | none => st

/-- The core state `rebuildToFrame` resets to: empty 32-colour palette,
clear-screen flag 1, `clearAllShapes`, and the same pushed to the
renderer. -/
def resetCore : CoreState :=
  ⟨createEmptyPalette, 1, [], [], createEmptyPalette, 1⟩

/-- The rebuild loop of `rebuildToFrame`: reset, then execute the
frames `0 .. target` in order. -/
def execUpTo (cs : Cutscene) : ℕ → CoreState
  | 0 => stepFrame cs resetCore 0
  | k + 1 => stepFrame cs (execUpTo cs k) (k + 1)

/-- `renderCurrentFrame` (the state effect; the frame-change callback
carries no state). -/
def renderCurrentFrame (cs : Cutscene) (st : PState) : PState :=
  { st with core := stepFrame cs st.core st.currentFrame }

/-- `nextFrame`: advance and execute the next frame when one remains. -/
def nextFrame (cs : Cutscene) (st : PState) : PState :=
  if (st.currentFrame : ℤ) < (st.totalFrames : ℤ) - 1 then
    renderCurrentFrame cs { st with currentFrame := st.currentFrame + 1 }
  else st

/-- `rebuildToFrame` (leaves `currentFrame` to its caller). -/
def rebuildToFrame (cs : Cutscene) (st : PState) (target : ℕ) : PState :=
  { st with core := execUpTo cs target }

/-- `goToFrame`: in-range indices set `currentFrame` and rebuild;
out-of-range indices leave the state untouched. -/
def goToFrame (cs : Cutscene) (st : PState) (i : ℤ) : PState :=
  if 0 ≤ i ∧ i < (st.totalFrames : ℤ) then
    rebuildToFrame cs { st with currentFrame := i.toNat } i.toNat
  else st

/-- `reset`: `goToFrame(0)`. -/
def reset (cs : Cutscene) (st : PState) : PState := goToFrame cs st 0

/-! ## Claims C1, C2, C5, C10 -/

theorem reset_eq (cs : Cutscene) (st : PState) (h : 0 < st.totalFrames) :
    reset cs st = ⟨st.currentSubscene, 0, st.totalFrames, execUpTo cs 0⟩ := by
  simp only [reset, goToFrame, rebuildToFrame]
  rw [if_pos ⟨le_refl (0 : ℤ), by omega⟩]
  rfl

/-- C1 (VM.determinism): for every loaded cutscene and every frame index
`i` below `total_frames`, the full interpreter-plus-renderer state after
`reset(); goToFrame(i)` equals the state after `reset()` followed by `i`
calls of `nextFrame()`.  The rendered framebuffer is a function of this
state (the renderer reads exactly the draw list, the palette and the
flag held here), so the framebuffers agree as well. -/
theorem vm_determinism (cs : Cutscene) (st : PState) (i : ℕ)
    (ht : st.totalFrames = countTotalFrames cs) (hi : i < countTotalFrames cs) :
    goToFrame cs (reset cs st) (i : ℤ) = (nextFrame cs)^[i] (reset cs st) := by
  have h0 : 0 < st.totalFrames := by omega
  have hreset := reset_eq cs st h0
  have hiter : ∀ k, k ≤ i → (nextFrame cs)^[k] (reset cs st) =
      ⟨st.currentSubscene, k, st.totalFrames, execUpTo cs k⟩ := by
    intro k
    induction k with
    | zero => intro _; simpa using hreset
    | succ m ih =>
      intro hk
      rw [Function.iterate_succ_apply', ih (by omega)]
      show nextFrame cs ⟨st.currentSubscene, m, st.totalFrames, execUpTo cs m⟩ = _
      simp only [nextFrame]
      rw [if_pos (by omega)]
      rfl
  rw [hiter i le_rfl, hreset]
  simp only [goToFrame, rebuildToFrame]
  split_ifs with hc
  · simp [Int.toNat_natCast]
  · exfalso
    exact hc ⟨Int.natCast_nonneg i, by omega⟩

/-- Shapes of the demonstration cutscene (one empty shape with id 1). -/
def demoShapes : List Shape := [⟨1, []⟩]

/-- A two-frame demonstration cutscene. -/
def demoCutscene : Cutscene :=
  ⟨demoShapes, [List.replicate 16 ⟨255, 255, 255⟩],
   ⟨1, 2, [⟨0, 0, [⟨[Command.nop]⟩, ⟨[Command.refreshScreen 0]⟩]⟩]⟩⟩

/-- The interpreter state the constructor builds for `demoCutscene`. -/
def demoSt : PState := ⟨0, 0, 2, resetCore⟩

/-- Witness for C1 at `demoCutscene`, frame 1. -/
theorem vm_determinism_witness :
    demoSt.totalFrames = countTotalFrames demoCutscene ∧
    1 < countTotalFrames demoCutscene ∧
    goToFrame demoCutscene (reset demoCutscene demoSt) ((1 : ℕ) : ℤ) =
      (nextFrame demoCutscene)^[1] (reset demoCutscene demoSt) :=
  ⟨by decide, by decide,
   vm_determinism demoCutscene demoSt 1 (by decide) (by decide)⟩

theorem writePaletteSlice_getD (off : ℕ) (src : List Color)
    (hsrc : 16 ≤ src.length) :
    ∀ (n i : ℕ) (buf : List Color), i + n = 16 → off + 16 ≤ buf.length →
      ∀ j : ℕ,
        (writePaletteSlice off src i n buf).getD j ⟨0, 0, 0⟩ =
          if off + i ≤ j ∧ j < off + 16 then src.getD (j - off) ⟨0, 0, 0⟩
          else buf.getD j ⟨0, 0, 0⟩ := by
  intro n
  induction n with
  | zero =>
    intro i buf hin hlen j
    have h16 : i = 16 := by omega
    subst h16
    show buf.getD j _ = _
    rw [if_neg (by omega)]
  | succ m ih =>
    intro i buf hin hlen j
    have hcond : i < 16 ∧ i < src.length := ⟨by omega, by omega⟩
    show (writePaletteSlice off src i (m + 1) buf).getD j _ = _
    rw [show writePaletteSlice off src i (m + 1) buf =
        writePaletteSlice off src (i + 1) m
          (buf.set (off + i) (src.getD i ⟨0, 0, 0⟩)) from by
      simp [writePaletteSlice, hcond]]
    rw [ih (i + 1) _ (by omega) (by simpa using hlen) j]
    by_cases h1 : off + (i + 1) ≤ j ∧ j < off + 16
    · rw [if_pos h1, if_pos ⟨by omega, h1.2⟩]
    · rw [if_neg h1]
      by_cases h2 : j = off + i
      · subst h2
        rw [if_pos ⟨le_refl _, by omega⟩]
        have hlt : off + i < buf.length := by omega
        simp [List.getD_eq_getElem?_getD, List.getElem?_set_self', hlt,
          show off + i - off = i from by omega]
      · rw [if_neg (by omega)]
        rw [List.getD_eq_getElem?_getD, List.getD_eq_getElem?_getD,
          List.getElem?_set_ne (fun hk => h2 hk.symm)]
        exact (List.getD_eq_getElem?_getD buf j ⟨0, 0, 0⟩).symm

/-- C2 (VM.palette-slot): with a valid palette index `P` (and the
parser-guaranteed 16-colour palette and 32-entry buffer), executing
`setPalette{pal_num = P, buf_num = B}` overwrites exactly the 16 buffer
entries starting at `((B ^ 1) & 1) * 16` with `cutscene.palettes[P]` and
leaves every other entry unchanged. -/
theorem setPalette_slot (cs : Cutscene) (st : CoreState) (P B j : ℕ)
    (hP : P < cs.palettes.length)
    (hlen : (cs.palettes.getD P []).length = 16)
    (hbuf : st.paletteBuffer.length = 32) (hj : j < 32) :
    (executeCommand cs st (.setPalette P B)).paletteBuffer.getD j ⟨0, 0, 0⟩ =
      if ((B ^^^ 1) &&& 1) * 16 ≤ j ∧ j < ((B ^^^ 1) &&& 1) * 16 + 16 then
        (cs.palettes.getD P []).getD (j - ((B ^^^ 1) &&& 1) * 16) ⟨0, 0, 0⟩
      else st.paletteBuffer.getD j ⟨0, 0, 0⟩ := by
  have hslot : (B ^^^ 1) &&& 1 ≤ 1 := Nat.and_le_right
  show (if P < cs.palettes.length then _ else st).paletteBuffer.getD j _ = _
  rw [if_pos hP]
  show (writePaletteSlice (((B ^^^ 1) &&& 1) * 16) (cs.palettes.getD P []) 0 16
      st.paletteBuffer).getD j _ = _
  rw [writePaletteSlice_getD (((B ^^^ 1) &&& 1) * 16) (cs.palettes.getD P [])
    (by omega) 16 0 st.paletteBuffer (by omega) (by omega) j]
  simp only [Nat.add_zero]

/-- Witness for C2: `setPalette{0, 0}` on the demonstration cutscene
writes slot 1 (entries 16..31); entry 20 receives palette colour 4 and
entry 3 is untouched. -/
theorem setPalette_slot_witness :
    (0 : ℕ) < demoCutscene.palettes.length ∧
    (demoCutscene.palettes.getD 0 []).length = 16 ∧
    resetCore.paletteBuffer.length = 32 ∧ (20 : ℕ) < 32 ∧
    (executeCommand demoCutscene resetCore (.setPalette 0 0)).paletteBuffer.getD 20 ⟨0, 0, 0⟩ =
      (if ((0 ^^^ 1) &&& 1) * 16 ≤ 20 ∧ 20 < ((0 ^^^ 1) &&& 1) * 16 + 16 then
        (demoCutscene.palettes.getD 0 []).getD (20 - ((0 ^^^ 1) &&& 1) * 16) ⟨0, 0, 0⟩
      else resetCore.paletteBuffer.getD 20 ⟨0, 0, 0⟩) :=
  ⟨by decide, by decide, by decide, by decide,
   setPalette_slot demoCutscene resetCore 0 0 20 (by decide) (by decide)
     (by decide) (by decide)⟩

/-- The DRAW_SHAPE_SCALE test stream: opcode byte `0x28`, shape word
`0x0001`, zoom bytes `0xFF 0xD8`, origin `(0, 0)`, end marker. -/
def c5buf : List ℕ := [40, 0, 1, 255, 216, 0, 0, 128]

/-- C5 (Scale.sign): the zoom of `drawShapeScale` is read with
`readBEInt16`, so the bytes `FF D8` decode to `-40` (big-endian signed),
and the renderer stores scale `(zoom + 512) / 512`; hence the effective
scale for `zoom = -40` is `472 / 512 = 0.921875`, while an unsigned read
of the same bytes (65496) would give `128.921875`. -/
theorem drawShapeScale_zoom_sign (core : CoreState) (x y zoom : ℤ) (ox oy : ℕ) :
    parseCommands c5buf 0 = [Command.drawShapeScale 1 0 0 (-40) 0 0] ∧
    beI16At c5buf 3 = -40 ∧ beU16At c5buf 3 = 65496 ∧
    ((rendererDrawShapeScale demoShapes core 1 x y zoom ox oy).rDrawn.getLast?.map
        scaleValue = some (scaleOfZoom zoom)) ∧
    scaleOfZoom (-40) = 0.921875 ∧
    scaleOfZoom 65496 = 128.921875 := by
  refine ⟨by decide, by decide, by decide, ?_, by norm_num [scaleOfZoom], by norm_num [scaleOfZoom]⟩
  show (pushDrawnShape demoShapes core
      ⟨1, x, y, zoom + 512, 0, ox, oy, core.rClearScreen⟩).rDrawn.getLast?.map scaleValue
      = some (scaleOfZoom zoom)
  rw [show pushDrawnShape demoShapes core
      ⟨1, x, y, zoom + 512, 0, ox, oy, core.rClearScreen⟩ =
      (if core.rClearScreen ≠ 0 then
        { core with rDrawn := core.rDrawn ++ [⟨1, x, y, zoom + 512, 0, ox, oy, core.rClearScreen⟩],
                    rAux := core.rAux ++ [⟨1, x, y, zoom + 512, 0, ox, oy, core.rClearScreen⟩] }
      else
        { core with rDrawn := core.rDrawn ++ [⟨1, x, y, zoom + 512, 0, ox, oy, core.rClearScreen⟩] })
    from rfl]
  split_ifs <;> simp [List.getLast?_concat, scaleValue, scaleOfZoom]

/-- C10 (amended): `goToFrame` with an out-of-range index (negative or
at least `total_frames`) is silently ignored — the state is left
completely unchanged; no clamping and no navigation happen. -/
theorem goToFrame_out_of_range (cs : Cutscene) (st : PState) (i : ℤ)
    (h : i < 0 ∨ (st.totalFrames : ℤ) ≤ i) : goToFrame cs st i = st := by
  simp only [goToFrame]
  rw [if_neg (by omega)]

/-- Witness for the amended C10. -/
theorem goToFrame_out_of_range_witness :
    ((5 : ℤ) < 0 ∨ (demoSt.totalFrames : ℤ) ≤ 5) ∧
    goToFrame demoCutscene demoSt 5 = demoSt :=
  ⟨by decide, goToFrame_out_of_range demoCutscene demoSt 5 (by decide)⟩

/-- Counterexample for C10 as stated: on the two-frame demonstration
cutscene, `goToFrame 5` does nothing (the current frame stays 0), while
the navigation the claim demands — clamping to the last valid index 1 —
would move the current frame to 1; the two outcomes differ. -/
theorem goToFrame_clamp_counterexample :
    goToFrame demoCutscene demoSt 5 = demoSt ∧
    demoSt.currentFrame = 0 ∧
    (goToFrame demoCutscene demoSt 1).currentFrame = 1 ∧
    goToFrame demoCutscene demoSt 5 ≠ goToFrame demoCutscene demoSt 1 := by
  refine ⟨by decide, by decide, by decide, by decide⟩

/-! ## INS parsing, the loader check and the OPL3 translation -/

/-- One AdLib operator of `InsParser.ts` (thirteen little-endian `u16`
fields). -/
structure InsOperator where
  keyScaling : ℕ
  frequencyMultiplier : ℕ
  feedbackStrength : ℕ
  attackRate : ℕ
  sustainLevel : ℕ
  sustainSound : Bool
  decayRate : ℕ
  releaseRate : ℕ
  outputLevel : ℕ
  amplitudeVibrato : Bool
  frequencyVibrato : Bool
  envelopeScaling : Bool
  frequencyModulation : Bool
deriving DecidableEq, Repr

structure InsData where
  mode : ℕ
  channelNum : ℕ
  modulatorWaveSelect : ℕ
  carrierWaveSelect : ℕ
  modulator : InsOperator
  carrier : InsOperator
deriving DecidableEq, Repr

/-- `parseOperator`: 13 consecutive little-endian `u16` fields. -/
def parseOperator (buf : List ℕ) (off : ℕ) : InsOperator :=
  ⟨leU16At buf (off + 0), leU16At buf (off + 2), leU16At buf (off + 4),
   leU16At buf (off + 6), leU16At buf (off + 8), leU16At buf (off + 10) ≠ 0,
   leU16At buf (off + 12), leU16At buf (off + 14), leU16At buf (off + 16),
   leU16At buf (off + 18) ≠ 0, leU16At buf (off + 20) ≠ 0,
   leU16At buf (off + 22) ≠ 0, leU16At buf (off + 24) ≠ 0⟩

/-- `parseIns`: rejects only buffers shorter than 80 bytes; the mode
byte is stored unchecked, and the wave selects come from bytes 74 and
76. -/
def parseIns (buf : List ℕ) : Except String InsData :=
  if buf.length < 80 then .error "INS file too small"
  else .ok ⟨byteAt buf 0, byteAt buf 1, byteAt buf 74 &&& 7, byteAt buf 76 &&& 7,
    parseOperator buf 2, parseOperator buf 28⟩

/-- The per-buffer acceptance check of `MidiPlayer.loadInsFile`: a
candidate buffer is skipped (the loader moves on and ultimately returns
null) unless it is exactly 80 bytes with mode byte 0 or 1; an accepted
buffer is handed to `parseIns`. -/
def loadInsBuffer (buf : List ℕ) : Option InsData :=
  if buf.length ≠ 80 then none
  else if 1 < byteAt buf 0 then none
  else (parseIns buf).toOption

/-- An 80-byte INS image whose mode byte is 2 (neither melodic nor
percussion). -/
def c8buf : List ℕ := 2 :: List.replicate 79 0

/-- C8 (amended): `parseIns` itself performs no mode validation — an
80-byte buffer parses successfully whatever its mode byte — and the
mode check lives in `MidiPlayer.loadInsFile`, which skips a buffer whose
mode byte exceeds 1 by returning null, so no instrument data is produced
from such a file; no `InvalidFormat`-style error is returned anywhere. -/
theorem ins_bad_mode_skipped (buf : List ℕ)
    (hlen : buf.length = 80) (hmode : 1 < byteAt buf 0) :
    loadInsBuffer buf = none ∧
    (parseIns buf).toOption.map (fun d => d.mode) = some (byteAt buf 0) := by
  constructor
  · simp only [loadInsBuffer]
    rw [if_neg (by omega), if_pos hmode]
  · simp only [parseIns]
    rw [if_neg (by omega)]
    rfl

/-- Witness for the amended C8 at the concrete buffer `c8buf`. -/
theorem ins_bad_mode_skipped_witness :
    c8buf.length = 80 ∧ 1 < byteAt c8buf 0 ∧
    (loadInsBuffer c8buf = none ∧
      (parseIns c8buf).toOption.map (fun d => d.mode) = some (byteAt c8buf 0)) :=
  ⟨by decide, by decide, ins_bad_mode_skipped c8buf (by decide) (by decide)⟩

/-- Counterexample for C8 as stated: parsing the 80-byte buffer with
mode byte 2 is not rejected — `parseIns` succeeds and yields instrument
data with `mode = 2`. -/
theorem ins_bad_mode_counterexample :
    (parseIns c8buf).isOk = true ∧
    (parseIns c8buf).toOption.map (fun d => d.mode) = some 2 := by
  refine ⟨by decide, by decide⟩

/-- One OPL3 operator of `InsToOpl3.ts`. -/
structure Opl3Operator where
  am : Bool
  vibrato : Bool
  sustaining : Bool
  ksr : Bool
  freqMult : ℕ
  keyScaleLevel : ℕ
  totalLevel : ℕ
  attack : ℕ
  decay : ℕ
  sustain : ℕ
  release : ℕ
  waveform : ℕ
deriving DecidableEq, Repr

/-- The complete OPL3 instrument record of `InsToOpl3.ts`. -/
structure Opl3Instrument where
  version : ℕ
  is4op : Bool
  isPseudo4op : Bool
  isBlank : Bool
  rhythmMode : ℕ
  feedback1 : ℕ
  connection1 : ℕ
  feedback2 : ℕ
  connection2 : ℕ
  noteOffset1 : ℤ
  noteOffset2 : ℤ
  velocityOffset : ℤ
  secondVoiceDetune : ℤ
  percussionKey : ℕ
  delayOnMs : ℕ
  delayOffMs : ℕ
  operators : List Opl3Operator
deriving DecidableEq, Repr

/-- `defaultOperator` (silent). -/
def defaultOperator : Opl3Operator :=
  ⟨false, false, false, false, 0, 0, 63, 0, 0, 0, 0, 0⟩

/-- `convertOperator`. -/
def convertOperator (ins : InsOperator) (waveSelect : ℕ) : Opl3Operator :=
  ⟨ins.amplitudeVibrato, ins.frequencyVibrato, ins.sustainSound, ins.envelopeScaling,
   ins.frequencyMultiplier &&& 15, ins.keyScaling &&& 3, ins.outputLevel &&& 63,
   ins.attackRate &&& 15, ins.decayRate &&& 15, ins.sustainLevel &&& 15,
   ins.releaseRate &&& 15, waveSelect &&& 7⟩

/-- The optional note and velocity offsets of `insToOpl3`. -/
structure InsToOpl3Options where
  noteOffset : Option ℤ
  velocityOffset : Option ℤ
deriving DecidableEq, Repr

/-- `insToOpl3`: two-operator translation; `rhythmMode` is the literal
`0` irrespective of the INS mode, feedback and connection come from the
modulator. -/
def insToOpl3 (ins : InsData) (options : InsToOpl3Options) : Opl3Instrument :=
  ⟨0, false, false, false,
   0,
   ins.modulator.feedbackStrength &&& 7,
   (if ins.modulator.frequencyModulation then 0 else 1),
   0, 0,
   options.noteOffset.getD 0, 0,
   options.velocityOffset.getD 0, 0, 0, 0, 0,
   [convertOperator ins.modulator ins.modulatorWaveSelect,
    convertOperator ins.carrier ins.carrierWaveSelect,
    defaultOperator, defaultOperator]⟩

/-- The bank id computed at the injection sites of `MidiPlayer`
(`loadAndInjectInstruments` and `setChannelInstrument`):
`percussive: insData.mode !== 0`. -/
def bankPercussive (ins : InsData) : Bool := ins.mode ≠ 0

/-- C9 (amended): `insToOpl3` always produces `rhythmMode = 0`, for
percussion instruments just as for melodic ones (so the melodic half of
the original claim holds and the percussion half does not); percussion
is signalled instead through the bank id's `percussive` flag, which is
set exactly when the INS mode is non-zero. -/
theorem insToOpl3_rhythm_mode (ins : InsData) (options : InsToOpl3Options) :
    (insToOpl3 ins options).rhythmMode = 0 ∧
    bankPercussive ins = decide (ins.mode ≠ 0) := by
  constructor
  · rfl
  · rfl

/-- A concrete percussion instrument (`mode = 1`): the all-zero operator
pair with wave selects 0. -/
def demoPercussionIns : InsData :=
  ⟨1, 6, 0, 0,
   ⟨0, 0, 0, 0, 0, false, 0, 0, 0, false, false, false, false⟩,
   ⟨0, 0, 0, 0, 0, false, 0, 0, 0, false, false, false, false⟩⟩

/-- Counterexample for C9 as stated: for a percussion INS (`mode = 1`)
the Instrument Map still emits `rhythmMode = 0`, not a value in 1..7. -/
theorem insToOpl3_rhythm_mode_counterexample :
    demoPercussionIns.mode = 1 ∧
    (insToOpl3 demoPercussionIns ⟨none, none⟩).rhythmMode = 0 ∧
    ¬ (1 ≤ (insToOpl3 demoPercussionIns ⟨none, none⟩).rhythmMode ∧
        (insToOpl3 demoPercussionIns ⟨none, none⟩).rhythmMode ≤ 7) := by
  refine ⟨rfl, rfl, by decide⟩
